import Mathlib

/-!
Shallow embedding of the bilibili-mcp media acquisition pipeline.

Source files embedded here:
- internal/bilibili/download/media_service.go (stream resolver, quality
  catalog, transfer engine, filename construction)
- the browser pool (package browser: Get / Put / GetWithAuth)

Go machine integers are modelled as Lean `Int`; the filesystem is an
explicit map from path to file size; the platform API client is an
oracle function passed in explicitly.
-/

namespace BilibiliMCP

/-- One DASH track (api.DASHStream): id, url, bandwidth, dimensions. -/
structure DASHStream where
  id : Int
  baseURL : String
  bandwidth : Int
  width : Int
  height : Int
deriving DecidableEq

/-- DASH split representation (api.DASHInfo): video and audio track lists. -/
structure DASHInfo where
  duration : Int
  video : List DASHStream
  audio : List DASHStream
deriving DecidableEq

/-- One muxed segment (api.DURLItem). -/
structure DURLItem where
  url : String
  size : Int
deriving DecidableEq

/-- api.VideoStreamData: quality code, duration (ms), optional DASH split
representation, muxed segment list. -/
structure VideoStreamData where
  quality : Int
  timeLength : Int
  dash : Option DASHInfo
  durl : List DURLItem
deriving DecidableEq

/-- Response of api.Client.GetVideoStream: `ok` is "err == nil", then the
platform status code and payload. -/
structure StreamResp where
  ok : Bool
  code : Int
  data : VideoStreamData
deriving DecidableEq

/-- One track of a PlayUrlResponse. -/
structure PlayUrlTrack where
  id : Int
  baseURL : String
  bandwidth : Int
  width : Int
  height : Int
deriving DecidableEq

/-- Response of api.Client.GetPlayUrl: transport success flag, status code,
DASH duration and track lists. -/
structure PlayUrlResp where
  ok : Bool
  code : Int
  duration : Int
  video : List PlayUrlTrack
  audio : List PlayUrlTrack
deriving DecidableEq

/-- QualityInfo from media_service.go. -/
structure QualityInfo where
  quality : Int
  description : String
  width : Int
  height : Int
  hasAudio : Bool
  available : Bool
deriving DecidableEq

/-- The platform API oracle: `api quality fnval` is the GetVideoStream
response for that quality and format-flag combination (fnval 1 = muxed MP4,
fnval 16 = DASH split). -/
def ApiOracle := Int → Int → StreamResp

/-- getQualityDescription from media_service.go. -/
def getQualityDescription (quality : Int) : String :=
  if quality = 16 then "360P"
  else if quality = 32 then "480P"
  else if quality = 64 then "720P"
  else if quality = 74 then "720P60"
  else if quality = 80 then "1080P"
  else if quality = 112 then "1080P+"
  else if quality = 116 then "1080P60"
  else if quality = 120 then "4K"
  else if quality = 125 then "HDR"
  else if quality = 126 then "杜比视界"
  else if quality = 127 then "8K"
  else "Q" ++ toString quality

/-- getQualityFromVideo from media_service.go: infer the quality code from
the maximum video height (empty list defaults to 720P = 64). -/
def getQualityFromVideo (videos : List PlayUrlTrack) : Int :=
  if videos = [] then 64
  else
    let maxHeight := videos.foldl (fun m v => max m v.height) 0
    if maxHeight ≥ 2160 then 120
    else if maxHeight ≥ 1080 then 80
    else if maxHeight ≥ 720 then 64
    else if maxHeight ≥ 480 then 32
    else 16

/-- convertPlayUrlToStreamData from media_service.go. -/
def convertPlayUrlToStreamData (resp : PlayUrlResp) : VideoStreamData :=
  { quality := getQualityFromVideo resp.video
    timeLength := resp.duration * 1000
    dash := some
      { duration := resp.duration
        video := resp.video.map fun v =>
          { id := v.id, baseURL := v.baseURL, bandwidth := v.bandwidth
            width := v.width, height := v.height }
        audio := resp.audio.map fun a =>
          { id := a.id, baseURL := a.baseURL, bandwidth := a.bandwidth
            width := 0, height := 0 } }
    durl := [] }

/-- The muxed-probe success test used in getOptimalStream's MP4 loop and in
getAvailableQualities: transport ok, status 0, non-empty DURL list. -/
def mp4ProbeOk (api : ApiOracle) (quality : Int) : Bool :=
  (api quality 1).ok && (api quality 1).code == 0
    && !((api quality 1).data.durl == [])

/-- The muxed probe order chosen in getOptimalStream from the requested
quality (the `qualities` slice). -/
def probeQualities (preferredQuality : Int) : List Int :=
  if preferredQuality > 0 then
    if preferredQuality ≥ 80 then [preferredQuality, 80, 64, 32, 16]
    else [preferredQuality, 64, 32, 16]
  else [64, 32, 16]

/-- The MP4 probe loop of getOptimalStream: walk the quality list, call the
API at fnval 1 for each entry, stop at the first success.  Returns the list
of qualities actually probed (in order) and the selected quality/payload. -/
def tryQualities (api : ApiOracle) : List Int → List Int × Option (Int × VideoStreamData)
  | [] => ([], none)
  | q :: rest =>
    if mp4ProbeOk api q then ([q], some (q, (api q 1).data))
    else
      let p := tryQualities api rest
      (q :: p.1, p.2)

/-- targetQuality computation of getOptimalStream's DASH branch: the
requested quality, defaulting to 80 (1080P) when unset. -/
def targetQualityOf (preferredQuality : Int) : Int :=
  if preferredQuality = 0 then 80 else preferredQuality

/-- StreamResult from media_service.go. -/
structure StreamResult where
  streamData : VideoStreamData
  currentQuality : QualityInfo
  availableQualities : List QualityInfo
deriving DecidableEq

/-- The QualityInfo built for a video track observed in the DASH probe of
getAvailableQualities. -/
def mkVideoQualityInfo (v : DASHStream) : QualityInfo :=
  { quality := v.id, description := getQualityDescription v.id
    width := v.width, height := v.height, hasAudio := false, available := true }

/-- The quality map of getAvailableQualities, modelled as a function from
quality id to the stored entry; built by inserting every DASH video track. -/
def videoQualityMap (videos : List DASHStream) : Int → Option QualityInfo :=
  videos.foldl
    (fun m v => fun q => if q = v.id then some (mkVideoQualityInfo v) else m q)
    (fun _ => none)

/-- The MP4-capable probe pass of getAvailableQualities over one quality:
on probe success the existing entry has HasAudio flipped to true, or a fresh
HasAudio entry is inserted. -/
def applyMP4Probe (api : ApiOracle) (m : Int → Option QualityInfo) (q : Int) :
    Int → Option QualityInfo :=
  if mp4ProbeOk api q then
    match m q with
    | some e => fun p => if p = q then some { e with hasAudio := true } else m p
    | none => fun p =>
        if p = q then
          some { quality := q, description := getQualityDescription q
                 width := 0, height := 0, hasAudio := true, available := true }
        else m p
  else m

/-- The testMP4Qualities slice of getAvailableQualities. -/
def testMP4Qualities : List Int := [64, 32, 16]

/-- The fixed iteration order used to emit catalog entries in
getAvailableQualities. -/
def qualitySortOrder : List Int := [127, 125, 120, 116, 112, 80, 74, 64, 32, 16]

/-- The fallback catalog of getAvailableQualities when the DASH probe fails:
qualities 80/64/32/16 with HasAudio guessed true for 64 and below. -/
def basicQualityList : List QualityInfo :=
  [80, 64, 32, 16].map fun q =>
    { quality := q, description := getQualityDescription q
      width := 0, height := 0, hasAudio := decide (q ≤ 64), available := true }

/-- getAvailableQualities from media_service.go: probe the DASH manifest at
quality 80; on success collect observed video-track ids, overlay MP4 probes
on 64/32/16, and emit entries in the fixed sort order; on probe failure
return the basic list.  Never returns an error. -/
def getAvailableQualities (api : ApiOracle) : Except String (List QualityInfo) :=
  let r := api 80 16
  match r.data.dash with
  | some dd =>
    if r.ok ∧ r.code = 0 then
      let m := testMP4Qualities.foldl (applyMP4Probe api) (videoQualityMap dd.video)
      .ok (qualitySortOrder.filterMap m)
    else .ok basicQualityList
  | none => .ok basicQualityList

/-- The available-qualities list as consumed by getOptimalStream (on error
the slice is reset to empty; the embedded function never errors). -/
def availOf (api : ApiOracle) : List QualityInfo :=
  match getAvailableQualities api with
  | .ok l => l
  | .error _ => []

/-- The QualityInfo getOptimalStream builds in its DASH (split) branch:
actual quality, width and height come from the first listed video track,
falling back to the target quality when no track is listed. -/
def splitCurrentQuality (d : VideoStreamData) (tq : Int) : QualityInfo :=
  match d.dash with
  | some dd =>
    match dd.video with
    | v :: _ =>
      { quality := v.id, description := getQualityDescription v.id
        width := v.width, height := v.height, hasAudio := false, available := true }
    | [] =>
      { quality := tq, description := getQualityDescription tq
        width := 0, height := 0, hasAudio := false, available := true }
  | none =>
    { quality := tq, description := getQualityDescription tq
      width := 0, height := 0, hasAudio := false, available := true }

/-- fallbackToPlayUrl from media_service.go: degrade to the legacy
GetPlayUrl manifest; quality is inferred from the maximum video height,
HasAudio is forced false. -/
def fallbackToPlayUrl (playUrl : PlayUrlResp) (availableQualities : List QualityInfo) :
    Except String StreamResult :=
  if !playUrl.ok then .error "获取播放地址失败"
  else if playUrl.code ≠ 0 then .error "获取播放地址失败: 非零状态码"
  else
    let sd := convertPlayUrlToStreamData playUrl
    .ok { streamData := sd
          currentQuality :=
            { quality := sd.quality, description := getQualityDescription sd.quality
              width := 0, height := 0, hasAudio := false, available := true }
          availableQualities := availableQualities }

/-- getOptimalStream from media_service.go: enumerate available qualities,
probe muxed MP4 representations in the preferred order, and on failure fall
back to the DASH split fetch at the target quality, then to GetPlayUrl. -/
def getOptimalStream (api : ApiOracle) (playUrl : PlayUrlResp) (preferredQuality : Int) :
    Except String StreamResult :=
  let avail := availOf api
  match (tryQualities api (probeQualities preferredQuality)).2 with
  | some (q, d) =>
    .ok { streamData := d
          currentQuality :=
            { quality := q, description := getQualityDescription q
              width := 0, height := 0, hasAudio := true, available := true }
          availableQualities := avail }
  | none =>
    let tq := targetQualityOf preferredQuality
    let r := api tq 16
    if r.ok ∧ r.code = 0 then
      .ok { streamData := r.data
            currentQuality := splitCurrentQuality r.data tq
            availableQualities := avail }
    else fallbackToPlayUrl playUrl avail

/-! ### Transfer engine (downloadStream) and the download entry points.

The filesystem is a map from path to the size of the file stored there
(`none` = no file).  The network/filesystem outcomes that the Go code can
observe are supplied as an explicit environment. -/

/-- Filesystem state: path → size of the file at that path. -/
def FS := String → Option Int

/-- Create or overwrite a file. -/
def fsSet (fs : FS) (p : String) (sz : Int) : FS :=
  fun q => if q = p then some sz else fs q

/-- os.Remove. -/
def fsRemove (fs : FS) (p : String) : FS :=
  fun q => if q = p then none else fs q

/-- Outcome of the io.Copy transfer: full success with the byte count, or a
mid-stream write/network failure after some partial bytes. -/
inductive CopyOutcome where
  | success (written : Int)
  | failure (partialBytes : Int) (msg : String)
deriving DecidableEq

/-- The fallible steps of one downloadStream call, as observed by the code:
request construction, the HTTP round trip, the 200 status check, temp-file
creation, the body copy, and the final rename. -/
structure DownloadEnv where
  reqOk : Bool
  httpOk : Bool
  statusOk : Bool
  createOk : Bool
  copy : CopyOutcome
  renameOk : Bool
deriving DecidableEq

/-- downloadStream from media_service.go: issue the GET, write the body to
`outputPath ++ ".downloading"`, delete the temp file on any copy or rename
failure, atomically rename to `outputPath` on success.  Also returns the
list of byte-transfer URLs actually fetched. -/
def downloadStream (env : DownloadEnv) (fs : FS) (streamURL outputPath : String) :
    Except String Int × FS × List String :=
  if !env.reqOk then (.error "创建请求失败", fs, [])
  else if !env.httpOk then (.error "HTTP请求失败", fs, [streamURL])
  else if !env.statusOk then (.error "HTTP请求失败: 非200状态", fs, [streamURL])
  else
    let tempPath := outputPath ++ ".downloading"
    if !env.createOk then (.error "创建临时文件失败", fs, [streamURL])
    else
      match env.copy with
      | .failure partialBytes _ =>
        (.error "下载数据失败", fsRemove (fsSet fs tempPath partialBytes) tempPath, [streamURL])
      | .success written =>
        let fs1 := fsSet fs tempPath written
        if env.renameOk then
          (.ok written, fsSet (fsRemove fs1 tempPath) outputPath written, [streamURL])
        else
          (.error "重命名文件失败", fsRemove fs1 tempPath, [streamURL])

/-- The audio-track selection loop shared by downloadAudioOnly and
downloadAndMerge: start from the first track and replace it whenever a
strictly larger bandwidth is found. -/
def bestStep (best x : DASHStream) : DASHStream :=
  if x.bandwidth > best.bandwidth then x else best

/-- The loop body applied to the whole track list from a given start. -/
def selAux (best : DASHStream) (l : List DASHStream) : DASHStream :=
  l.foldl bestStep best

/-- selectBestAudio: the `bestAudio` computation of downloadAudioOnly and
downloadAndMerge (none when the track list is empty). -/
def selectBestAudio : List DASHStream → Option DASHStream
  | [] => none
  | a :: rest => some (selAux a (a :: rest))

/-- Audio artifact file name (fmt.Sprintf in downloadAudioOnly and
downloadAndMerge). -/
def audioFilename (cleanTitle videoID : String) : String :=
  cleanTitle ++ "_" ++ videoID ++ "_audio.m4a"

/-- Video-only artifact file name (fmt.Sprintf in downloadVideoOnly and
downloadAndMerge). -/
def videoFilename (cleanTitle videoID qualityDesc : String) : String :=
  cleanTitle ++ "_" ++ videoID ++ "_video_" ++ qualityDesc ++ ".m4v"

/-- Merged/MP4 artifact file name (fmt.Sprintf in downloadAndMerge and
downloadMP4). -/
def mergedFilename (cleanTitle videoID qualityDesc : String) : String :=
  cleanTitle ++ "_" ++ videoID ++ "_" ++ qualityDesc ++ ".mp4"

/-- The artifact-name layout as the specification document words it:
`title_videoID` followed by an optional suffix and the extension. -/
def specArtifactLayout (cleanTitle videoID suffix ext : String) : String :=
  cleanTitle ++ "_" ++ videoID ++ suffix ++ "." ++ ext

/-- filepath.Join of the output directory with a file name. -/
def joinPath (dir name : String) : String := dir ++ "/" ++ name

/-- downloadAudioOnly from media_service.go, reduced to its filesystem and
network effects: pick the best audio track, short-circuit when the audio
artifact already exists, otherwise stream it to disk.  Returns the result
(size and notes), the filesystem afterwards, and the byte-transfer URLs
fetched. -/
def downloadAudioOnly (env : DownloadEnv) (fs : FS) (audioTracks : List DASHStream)
    (outputDir cleanTitle videoID : String) :
    Except String (Int × String) × FS × List String :=
  match selectBestAudio audioTracks with
  | none => (.error "该视频没有可用的音频流", fs, [])
  | some best =>
    let absPath := joinPath outputDir (audioFilename cleanTitle videoID)
    match fs absPath with
    | some sz => (.ok (sz, "文件已存在，跳过下载"), fs, [])
    | none =>
      match downloadStream env fs best.baseURL absPath with
      | (.error e, fs1, calls) => (.error e, fs1, calls)
      | (.ok n, fs1, calls) => (.ok (n, "音频下载完成"), fs1, calls)

/-- downloadMP4 from media_service.go, reduced to its filesystem and network
effects: short-circuit when the merged artifact exists, otherwise stream the
first muxed segment to disk. -/
def downloadMP4 (env : DownloadEnv) (fs : FS) (durl : List DURLItem)
    (outputDir cleanTitle videoID qualityDesc : String) :
    Except String (Int × String) × FS × List String :=
  match durl with
  | [] => (.error "没有可用的MP4流", fs, [])
  | seg :: _ =>
    let absPath := joinPath outputDir (mergedFilename cleanTitle videoID qualityDesc)
    match fs absPath with
    | some sz => (.ok (sz, "文件已存在，跳过下载"), fs, [])
    | none =>
      match downloadStream env fs seg.url absPath with
      | (.error e, fs1, calls) => (.error e, fs1, calls)
      | (.ok n, fs1, calls) => (.ok (n, "MP4文件下载完成（已包含音频和视频）"), fs1, calls)

/-! ### Browser pool (package browser: Get / Put / GetWithAuth). -/

/-- Pool state: the number of instances in the `available` channel, the
channel capacity (= pool size), and the closed flag. -/
structure PoolState where
  available : Nat
  capacity : Nat
  closed : Bool
deriving DecidableEq

/-- BrowserPool.Get: error when the pool is closed or no instance becomes
available within the timeout; otherwise take one instance out. -/
def poolGet (st : PoolState) : Option Unit × PoolState :=
  if st.closed then (none, st)
  else if st.available > 0 then (some (), { st with available := st.available - 1 })
  else (none, st)

/-- BrowserPool.Put: no-op when closed; return the instance to the channel
when it has room, otherwise drop it with a warning. -/
def poolPut (st : PoolState) : PoolState :=
  if st.closed then st
  else if st.available < st.capacity then { st with available := st.available + 1 }
  else st

/-- The fallible steps of one GetWithAuth call: context creation, whether
the account name is empty, default-account lookup, cookie load, cookie set,
page creation. -/
structure AuthEnv where
  newContextOk : Bool
  accountNameEmpty : Bool
  defaultAccountOk : Bool
  loadCookiesOk : Bool
  addCookiesOk : Bool
  newPageOk : Bool
deriving DecidableEq

/-- Outcome of GetWithAuth. -/
inductive AuthOutcome where
  | failure (stage : String)
  | success
deriving DecidableEq

/-- GetWithAuth from the browser pool: check out an instance, then perform
each fallible step, calling Put before returning on every error path; on
success the Put is deferred to the returned cleanup function (modelled by
`poolPut` applied to the returned state).  The final component counts the
Put calls made before returning. -/
def getWithAuth (st : PoolState) (env : AuthEnv) : AuthOutcome × PoolState × Nat :=
  match poolGet st with
  | (none, st1) => (.failure "获取浏览器实例超时", st1, 0)
  | (some _, st1) =>
    if !env.newContextOk then (.failure "创建浏览器上下文失败", poolPut st1, 1)
    else if env.accountNameEmpty && !env.defaultAccountOk then
      (.failure "获取默认账号失败", poolPut st1, 1)
    else if !env.loadCookiesOk then (.failure "加载cookies失败", poolPut st1, 1)
    else if !env.addCookiesOk then (.failure "设置cookies失败", poolPut st1, 1)
    else if !env.newPageOk then (.failure "创建页面失败", poolPut st1, 1)
    else (.success, st1, 0)

/-! ### Concrete fixtures used by counterexamples and witnesses. -/

/-- A GetVideoStream response with a transport failure. -/
def failResp : StreamResp :=
  { ok := false, code := -1
    data := { quality := 0, timeLength := 0, dash := none, durl := [] } }

/-- A successful DASH response whose single video track has the given id. -/
def dashRespWith (vid : Int) : StreamResp :=
  { ok := true, code := 0
    data := { quality := 80, timeLength := 0
              dash := some { duration := 0
                             video := [{ id := vid, baseURL := "u", bandwidth := 1
                                         width := 1920, height := 1080 }]
                             audio := [] }
              durl := [] } }

/-- Oracle whose DASH probe reports one video track of id 116 and whose MP4
probes all fail. -/
def api116 : ApiOracle := fun q f => if f == 16 && q == 80 then dashRespWith 116 else failResp

/-- Oracle whose DASH probe reports one video track of id 126 (Dolby Vision)
and whose MP4 probes all fail. -/
def api126 : ApiOracle := fun q f => if f == 16 && q == 80 then dashRespWith 126 else failResp

/-- Oracle whose MP4 probes all fail and whose DASH fetch at quality q
reports one video track of id q. -/
def apiEcho : ApiOracle := fun q f => if f == 1 then failResp else dashRespWith q

/-- Oracle that fails every call. -/
def apiDead : ApiOracle := fun _ _ => failResp

/-- A GetPlayUrl response that fails on transport. -/
def pu0 : PlayUrlResp := { ok := false, code := 0, duration := 0, video := [], audio := [] }

/-- The DASHInfo that `api126` reports. -/
def dd126 : DASHInfo :=
  { duration := 0
    video := [{ id := 126, baseURL := "u", bandwidth := 1, width := 1920, height := 1080 }]
    audio := [] }

/-! ### Shared helper lemmas. -/

/-- A string never equals itself with the temp suffix appended. -/
theorem append_downloading_ne (s : String) : s ≠ s ++ ".downloading" := by
  intro h
  have hl := congrArg String.length h
  rw [String.length_append] at hl
  have h12 : (".downloading" : String).length = 12 := rfl
  rw [h12] at hl
  omega

/-- A successful probe-loop run selects an element of the probed list,
namely the first one whose probe succeeds, and the probe trace stops there. -/
theorem tryQualities_some (api : ApiOracle) :
    ∀ (qs : List Int) (q : Int) (d : VideoStreamData),
    (tryQualities api qs).2 = some (q, d) →
    ∃ pre post, qs = pre ++ q :: post ∧ (∀ x ∈ pre, mp4ProbeOk api x = false) ∧
      mp4ProbeOk api q = true ∧ (tryQualities api qs).1 = pre ++ [q] ∧
      d = (api q 1).data := by
  intro qs
  induction qs with
  | nil => intro q d h; simp [tryQualities] at h
  | cons a rest ih =>
    intro q d h
    by_cases hp : mp4ProbeOk api a
    · simp only [tryQualities, hp, if_true] at h ⊢
      rcases h with ⟨rfl, rfl⟩
      exact ⟨[], rest, rfl, by simp, hp, rfl, rfl⟩
    · simp only [tryQualities, hp, if_false, Bool.false_eq_true] at h ⊢
      rcases ih q d h with ⟨pre, post, hqs, hpre, hq, htr, hd⟩
      refine ⟨a :: pre, post, by simp [hqs], ?_, hq, ?_, hd⟩
      · intro x hx
        rcases List.mem_cons.mp hx with rfl | hx
        · simpa using hp
        · exact hpre x hx
      · simp [htr]

/-- A failed probe-loop run means every probe failed, and every quality was
probed in order. -/
theorem tryQualities_none (api : ApiOracle) :
    ∀ qs : List Int, (tryQualities api qs).2 = none →
    (∀ x ∈ qs, mp4ProbeOk api x = false) ∧ (tryQualities api qs).1 = qs := by
  intro qs
  induction qs with
  | nil => intro _; exact ⟨by simp, rfl⟩
  | cons a rest ih =>
    intro h
    by_cases hp : mp4ProbeOk api a
    · simp [tryQualities, hp] at h
    · simp only [tryQualities, hp, if_false, Bool.false_eq_true] at h ⊢
      rcases ih h with ⟨hall, htr⟩
      constructor
      · intro x hx
        rcases List.mem_cons.mp hx with rfl | hx
        · simpa using hp
        · exact hall x hx
      · simp [htr]

/-- When every probe fails the loop probes the whole list and selects
nothing. -/
theorem tryQualities_all_fail (api : ApiOracle) :
    ∀ qs : List Int, (∀ x ∈ qs, mp4ProbeOk api x = false) →
    tryQualities api qs = (qs, none) := by
  intro qs
  induction qs with
  | nil => intro _; rfl
  | cons a rest ih =>
    intro h
    have ha : mp4ProbeOk api a = false := h a (by simp)
    simp only [tryQualities, ha, Bool.false_eq_true, if_false]
    rw [ih fun x hx => h x (List.mem_cons_of_mem a hx)]

/-- The legacy height-inferred quality code is always one of
120/80/64/32/16. -/
theorem getQualityFromVideo_mem (videos : List PlayUrlTrack) :
    getQualityFromVideo videos ∈ ([120, 80, 64, 32, 16] : List Int) := by
  unfold getQualityFromVideo
  dsimp only
  split_ifs <;> simp

/-! ### Claim theorems. -/

/-- Claim C9, counterexample: the merged artifact name produced by
downloadAndMerge / downloadMP4 places the quality label between the video id
and the `.mp4` extension, so it differs from the claimed no-suffix layout. -/
theorem C9_counterexample :
    mergedFilename "title" "BV1xx411c7mD" "1080P" = "title_BV1xx411c7mD_1080P.mp4" ∧
    specArtifactLayout "title" "BV1xx411c7mD" "" "mp4" = "title_BV1xx411c7mD.mp4" ∧
    mergedFilename "title" "BV1xx411c7mD" "1080P" ≠
      specArtifactLayout "title" "BV1xx411c7mD" "" "mp4" :=
  ⟨rfl, rfl, by decide⟩

/-- Claim C9, amended: artifact names follow the layout
title_videoID + suffix + extension with ext .m4a / .m4v / .mp4, where the
suffix is "_audio" for audio, "_video_" + label for video-only, and
"_" + label (not empty) for combined artifacts. -/
theorem C9_artifact_layout (t vid qd : String) :
    audioFilename t vid = specArtifactLayout t vid "_audio" "m4a" ∧
    videoFilename t vid qd = specArtifactLayout t vid ("_video_" ++ qd) "m4v" ∧
    mergedFilename t vid qd = specArtifactLayout t vid ("_" ++ qd) "mp4" := by
  refine ⟨?_, ?_, ?_⟩ <;>
    simp only [audioFilename, videoFilename, mergedFilename, specArtifactLayout,
      String.append_assoc] <;>
    congr 1

/-- Claim C8 (confirmed): when the DASH probe fails on transport, status, or
missing DASH payload, getAvailableQualities returns — without an error — the
fixed four-entry list 1080P/720P/480P/360P with HasAudio true exactly for
ids at most 64. -/
theorem C8_fallback_list (api : ApiOracle)
    (h : ¬((api 80 16).ok = true ∧ (api 80 16).code = 0 ∧
            (api 80 16).data.dash.isSome = true)) :
    getAvailableQualities api = .ok
      [ { quality := 80, description := "1080P", width := 0, height := 0
          hasAudio := false, available := true },
        { quality := 64, description := "720P", width := 0, height := 0
          hasAudio := true, available := true },
        { quality := 32, description := "480P", width := 0, height := 0
          hasAudio := true, available := true },
        { quality := 16, description := "360P", width := 0, height := 0
          hasAudio := true, available := true } ] := by
  have hbasic : basicQualityList =
      [ { quality := 80, description := "1080P", width := 0, height := 0
          hasAudio := false, available := true },
        { quality := 64, description := "720P", width := 0, height := 0
          hasAudio := true, available := true },
        { quality := 32, description := "480P", width := 0, height := 0
          hasAudio := true, available := true },
        { quality := 16, description := "360P", width := 0, height := 0
          hasAudio := true, available := true } ] := by decide
  unfold getAvailableQualities
  dsimp only
  cases hd : (api 80 16).data.dash with
  | none =>
    dsimp only
    rw [hbasic]
  | some dd =>
    dsimp only
    rw [if_neg, hbasic]
    intro ⟨hok, hcode⟩
    exact h ⟨hok, hcode, by rw [hd]; rfl⟩

/-- Claim C8 witness at an always-failing oracle. -/
theorem C8_fallback_list_witness :
    getAvailableQualities apiDead = .ok
      [ { quality := 80, description := "1080P", width := 0, height := 0
          hasAudio := false, available := true },
        { quality := 64, description := "720P", width := 0, height := 0
          hasAudio := true, available := true },
        { quality := 32, description := "480P", width := 0, height := 0
          hasAudio := true, available := true },
        { quality := 16, description := "360P", width := 0, height := 0
          hasAudio := true, available := true } ] :=
  C8_fallback_list apiDead (by decide)

/-- Claim C4, counterexample: a combined request at quality 90 probes the
muxed qualities [90, 80, 64, 32, 16] — not [90, 64, 32, 16] — and when every
probe fails the split representation is fetched at the requested quality 90,
not at the default 80 (the echoing oracle shows the fetched quality). -/
theorem C4_counterexample :
    probeQualities 90 = [90, 80, 64, 32, 16] ∧
    probeQualities 90 ≠ [90, 64, 32, 16] ∧
    (tryQualities apiEcho (probeQualities 90)).1 = [90, 80, 64, 32, 16] ∧
    (tryQualities apiEcho (probeQualities 90)).2 = none ∧
    targetQualityOf 90 = 90 ∧ (90 : Int) ≠ 80 ∧
    (getOptimalStream apiEcho pu0 90).map (fun r => r.currentQuality.quality) =
      .ok 90 :=
  ⟨rfl, by decide, rfl, rfl, rfl, by decide, rfl⟩

/-- Claim C4, amended: a combined request at quality 90 probes muxed
representations in exactly the order [90, 80, 64, 32, 16]; when no probe
yields a non-empty muxed segment list, the split representation is fetched
at the requested quality 90 (the default 80 applies only when no quality was
requested). -/
theorem C4_probe_order_90 (api : ApiOracle) (pu : PlayUrlResp)
    (hfail : ∀ x ∈ probeQualities 90, mp4ProbeOk api x = false)
    (hok : (api 90 16).ok = true) (hcode : (api 90 16).code = 0) :
    probeQualities 90 = [90, 80, 64, 32, 16] ∧
    tryQualities api (probeQualities 90) = ([90, 80, 64, 32, 16], none) ∧
    targetQualityOf 90 = 90 ∧
    getOptimalStream api pu 90 =
      .ok { streamData := (api 90 16).data
            currentQuality := splitCurrentQuality (api 90 16).data 90
            availableQualities := availOf api } := by
  have htr := tryQualities_all_fail api (probeQualities 90) hfail
  refine ⟨rfl, htr, rfl, ?_⟩
  unfold getOptimalStream
  dsimp only
  rw [htr]
  simp only [targetQualityOf]
  rw [if_pos ⟨hok, hcode⟩]
  norm_num

/-- Claim C4 witness at the echoing oracle. -/
theorem C4_probe_order_90_witness :
    probeQualities 90 = [90, 80, 64, 32, 16] ∧
    tryQualities apiEcho (probeQualities 90) = ([90, 80, 64, 32, 16], none) ∧
    targetQualityOf 90 = 90 ∧
    getOptimalStream apiEcho pu0 90 =
      .ok { streamData := (apiEcho 90 16).data
            currentQuality := splitCurrentQuality (apiEcho 90 16).data 90
            availableQualities := availOf apiEcho } :=
  C4_probe_order_90 apiEcho pu0 (by decide) rfl rfl

/-- Claim C1, counterexample: with no requested quality (combined request),
an oracle whose split manifest lists a first video track of id 116 makes
getOptimalStream report current quality 116, which is neither the request
(0) nor any value of the documented fallback sequences (muxed [64, 32, 16],
split default 80, legacy codes 120/80/64/32/16). -/
theorem C1_counterexample :
    (getOptimalStream api116 pu0 0).map (fun r => r.currentQuality.quality) =
      .ok 116 ∧
    (116 : Int) ∉ ([0, 16, 32, 64, 80, 120] : List Int) ∧
    probeQualities 0 = [64, 32, 16] :=
  ⟨rfl, by decide, rfl⟩

/-- Claim C1, amended: every successful resolution reports a quality id that
is either a member of the muxed probe sequence for the request, or the id of
the first video track of the split manifest fetched at the target quality
(the target quality itself when no track is listed), or a legacy
height-inferred code from 120/80/64/32/16 — the split path may therefore
report an id outside the documented fallback sequence. -/
theorem C1_quality_provenance (api : ApiOracle) (pu : PlayUrlResp) (pq : Int)
    (r : StreamResult) (h : getOptimalStream api pu pq = .ok r) :
    r.currentQuality.quality ∈ probeQualities pq ∨
    r.currentQuality.quality =
      (splitCurrentQuality (api (targetQualityOf pq) 16).data (targetQualityOf pq)).quality ∨
    r.currentQuality.quality ∈ ([120, 80, 64, 32, 16] : List Int) := by
  unfold getOptimalStream at h
  dsimp only at h
  cases htr : (tryQualities api (probeQualities pq)).2 with
  | some qd =>
    rw [htr] at h
    rcases tryQualities_some api (probeQualities pq) qd.1 qd.2 (by rw [htr]) with
      ⟨pre, post, hqs, _, _, _, _⟩
    left
    have hr : r.currentQuality.quality = qd.1 := by
      cases h
      rfl
    rw [hr, hqs]
    exact List.mem_append_right pre (List.mem_cons_self _ _)
  | none =>
    rw [htr] at h
    by_cases hc : ((api (targetQualityOf pq) 16).ok = true ∧
        (api (targetQualityOf pq) 16).code = 0)
    · rw [if_pos hc] at h
      right; left
      cases h
      rfl
    · rw [if_neg hc] at h
      unfold fallbackToPlayUrl at h
      by_cases hpu : pu.ok
      · by_cases hpc : pu.code = 0
        · simp only [hpu, Bool.not_true, Bool.false_eq_true, if_false, hpc,
            ne_eq, not_true_eq_false] at h
          right; right
          have hr : r.currentQuality.quality =
              (convertPlayUrlToStreamData pu).quality := by
            cases h
            rfl
          rw [hr]
          exact getQualityFromVideo_mem pu.video
        · simp [hpu, hpc] at h
      · simp [hpu] at h

/-- Claim C1 witness: the amended provenance at the id-116 oracle. -/
theorem C1_quality_provenance_witness :
    ∃ r, getOptimalStream api116 pu0 0 = .ok r ∧
      (r.currentQuality.quality ∈ probeQualities 0 ∨
       r.currentQuality.quality =
         (splitCurrentQuality (api116 (targetQualityOf 0) 16).data (targetQualityOf 0)).quality ∨
       r.currentQuality.quality ∈ ([120, 80, 64, 32, 16] : List Int)) :=
  ⟨_, rfl, C1_quality_provenance api116 pu0 0 _ rfl⟩

/-- Transfer-engine fixtures: a fully successful environment, a failing one,
and an empty filesystem. -/
def envOk : DownloadEnv :=
  { reqOk := true, httpOk := true, statusOk := true, createOk := true
    copy := .success 5, renameOk := true }

/-- An environment whose copy step fails mid-stream. -/
def envBad : DownloadEnv :=
  { reqOk := true, httpOk := true, statusOk := true, createOk := true
    copy := .failure 3 "connection reset", renameOk := true }

/-- The empty filesystem. -/
def fsEmpty : FS := fun _ => none

/-- A successful downloadStream run writes the destination; on any error the
filesystem at the destination is what it was before. -/
theorem downloadStream_ok_dest (env : DownloadEnv) (fs : FS) (url out : String)
    (n : Int) (fs1 : FS) (calls : List String)
    (h : downloadStream env fs url out = (.ok n, fs1, calls)) :
    fs1 out = some n := by
  rcases env with ⟨reqOk, httpOk, statusOk, createOk, copy, renameOk⟩
  cases reqOk <;> cases httpOk <;> cases statusOk <;> cases createOk <;>
    cases copy <;> cases renameOk <;>
    simp_all [downloadStream, fsSet, fsRemove] <;>
    · obtain ⟨h1, h2, h3⟩ := h
      subst h2
      simp [fsSet, fsRemove, h1]

/-- Claim C2 (confirmed): starting from a filesystem with neither the
destination nor the temp file, downloadStream leaves no temp file and no
destination file behind on any error, and produces the destination — with
exactly the written byte count — only on the success path, where the temp
file is gone as well. -/
theorem C2_atomic_cleanup (env : DownloadEnv) (fs : FS) (url out : String)
    (hout : fs out = none) (htemp : fs (out ++ ".downloading") = none) :
    (∀ e fs1 calls, downloadStream env fs url out = (.error e, fs1, calls) →
        fs1 out = none ∧ fs1 (out ++ ".downloading") = none) ∧
    (∀ n fs1 calls, downloadStream env fs url out = (.ok n, fs1, calls) →
        fs1 out = some n ∧ fs1 (out ++ ".downloading") = none) := by
  have hne : out ≠ out ++ ".downloading" := append_downloading_ne out
  have hne2 : ¬(out ++ ".downloading" = out) := fun hh => hne hh.symm
  rcases env with ⟨reqOk, httpOk, statusOk, createOk, copy, renameOk⟩
  constructor <;> intro a fs1 calls h <;>
    cases reqOk <;> cases httpOk <;> cases statusOk <;> cases createOk <;>
      cases copy <;> cases renameOk <;>
      simp_all [downloadStream, fsSet, fsRemove] <;>
      (obtain ⟨h1, h2, h3⟩ := h; subst h2;
        simp [fsSet, fsRemove, h1, hne, hne2, hout, htemp])

/-- Claim C2 witness: the successful run at a concrete environment. -/
theorem C2_atomic_cleanup_witness :
    (downloadStream envOk fsEmpty "http://u" "dir/a.m4a").2.1 "dir/a.m4a" = some 5 ∧
    (downloadStream envOk fsEmpty "http://u" "dir/a.m4a").2.1 ("dir/a.m4a" ++ ".downloading") = none :=
  (C2_atomic_cleanup envOk fsEmpty "http://u" "dir/a.m4a" rfl rfl).2 5
    (downloadStream envOk fsEmpty "http://u" "dir/a.m4a").2.1 ["http://u"] rfl

/-- Claim C3 (confirmed): when the destination artifact already exists, both
download entry points return its current size with the already-exists note,
leave the filesystem untouched and issue no byte-transfer call; consequently
a second identical call after any successful call transfers nothing — even
under a network environment that would fail. -/
theorem C3_exists_short_circuit (env env2 : DownloadEnv) (fs : FS)
    (tracks : List DASHStream) (durl : List DURLItem) (dir t vid qd : String) :
    (∀ best sz, selectBestAudio tracks = some best →
      fs (joinPath dir (audioFilename t vid)) = some sz →
      downloadAudioOnly env fs tracks dir t vid =
        (.ok (sz, "文件已存在，跳过下载"), fs, [])) ∧
    (∀ seg rest sz, durl = seg :: rest →
      fs (joinPath dir (mergedFilename t vid qd)) = some sz →
      downloadMP4 env fs durl dir t vid qd =
        (.ok (sz, "文件已存在，跳过下载"), fs, [])) ∧
    (∀ n note fs1 calls,
      downloadAudioOnly env fs tracks dir t vid = (.ok (n, note), fs1, calls) →
      downloadAudioOnly env2 fs1 tracks dir t vid =
        (.ok (n, "文件已存在，跳过下载"), fs1, [])) ∧
    (∀ n note fs1 calls,
      downloadMP4 env fs durl dir t vid qd = (.ok (n, note), fs1, calls) →
      downloadMP4 env2 fs1 durl dir t vid qd =
        (.ok (n, "文件已存在，跳过下载"), fs1, [])) := by
  refine ⟨?_, ?_, ?_, ?_⟩
  · intro best sz hsel hstat
    unfold downloadAudioOnly
    rw [hsel]
    dsimp only
    rw [hstat]
  · intro seg rest sz hdurl hstat
    unfold downloadMP4
    rw [hdurl]
    dsimp only
    rw [hstat]
  · intro n note fs1 calls h
    cases hsel : selectBestAudio tracks with
    | none => simp [downloadAudioOnly, hsel] at h
    | some best =>
      simp only [downloadAudioOnly, hsel] at h ⊢
      cases hstat : fs (joinPath dir (audioFilename t vid)) with
      | some sz =>
        simp only [hstat, Prod.mk.injEq, Except.ok.injEq] at h
        obtain ⟨⟨rfl, rfl⟩, rfl, rfl⟩ := h
        simp only [hstat]
      | none =>
        simp only [hstat] at h
        rcases hds : downloadStream env fs best.baseURL (joinPath dir (audioFilename t vid))
          with ⟨r, f, c⟩
        simp only [hds] at h
        cases r with
        | error e => simp at h
        | ok m =>
          simp only [Prod.mk.injEq, Except.ok.injEq] at h
          obtain ⟨⟨rfl, -⟩, rfl, rfl⟩ := h
          have hdest := downloadStream_ok_dest env fs best.baseURL
            (joinPath dir (audioFilename t vid)) m f c hds
          simp only [hdest]
  · intro n note fs1 calls h
    cases durl with
    | nil => simp [downloadMP4] at h
    | cons seg rest =>
      simp only [downloadMP4] at h ⊢
      cases hstat : fs (joinPath dir (mergedFilename t vid qd)) with
      | some sz =>
        simp only [hstat, Prod.mk.injEq, Except.ok.injEq] at h
        obtain ⟨⟨rfl, rfl⟩, rfl, rfl⟩ := h
        simp only [hstat]
      | none =>
        simp only [hstat] at h
        rcases hds : downloadStream env fs seg.url (joinPath dir (mergedFilename t vid qd))
          with ⟨r, f, c⟩
        simp only [hds] at h
        cases r with
        | error e => simp at h
        | ok m =>
          simp only [Prod.mk.injEq, Except.ok.injEq] at h
          obtain ⟨⟨rfl, -⟩, rfl, rfl⟩ := h
          have hdest := downloadStream_ok_dest env fs seg.url
            (joinPath dir (mergedFilename t vid qd)) m f c hds
          simp only [hdest]

/-- A one-track audio list for witnesses. -/
def tracks1 : List DASHStream :=
  [{ id := 30280, baseURL := "http://a", bandwidth := 100, width := 0, height := 0 }]

/-- Claim C3 witness: after one successful audio download, a repeat call —
even under a failing network environment — short-circuits with no
byte-transfer calls. -/
theorem C3_exists_short_circuit_witness :
    downloadAudioOnly envBad
      ((downloadAudioOnly envOk fsEmpty tracks1 "out" "t" "BV1").2.1)
      tracks1 "out" "t" "BV1" =
    (.ok (5, "文件已存在，跳过下载"),
      (downloadAudioOnly envOk fsEmpty tracks1 "out" "t" "BV1").2.1, []) :=
  (C3_exists_short_circuit envOk envBad fsEmpty tracks1 [] "out" "t" "BV1" "1080P").2.2.1
    5 "音频下载完成" ((downloadAudioOnly envOk fsEmpty tracks1 "out" "t" "BV1").2.1)
    ["http://a"] rfl

/-- An oracle with a muxed representation only at quality 64. -/
def api64 : ApiOracle := fun q f =>
  if f == 1 && q == 64 then
    { ok := true, code := 0
      data := { quality := 64, timeLength := 0, dash := none
                durl := [{ url := "http://m", size := 1 }] } }
  else failResp

/-- Claim C5 (confirmed): a combined request probes muxed representations in
quality order requested/80/64/32/16 when the request is at least 80,
requested/64/32/16 when it is positive below 80, and 64/32/16 when unset;
the first probe with a non-empty muxed segment list is selected, with
HasAudio reported true; a fruitless run probes every quality in order. -/
theorem C5_combined_probe (api : ApiOracle) (pu : PlayUrlResp) (pq : Int) :
    (pq ≥ 80 → probeQualities pq = [pq, 80, 64, 32, 16]) ∧
    (0 < pq ∧ pq < 80 → probeQualities pq = [pq, 64, 32, 16]) ∧
    (pq ≤ 0 → probeQualities pq = [64, 32, 16]) ∧
    (∀ q d, (tryQualities api (probeQualities pq)).2 = some (q, d) →
      ∃ pre post, probeQualities pq = pre ++ q :: post ∧
        (∀ x ∈ pre, mp4ProbeOk api x = false) ∧ mp4ProbeOk api q = true ∧
        (tryQualities api (probeQualities pq)).1 = pre ++ [q] ∧
        d = (api q 1).data ∧
        getOptimalStream api pu pq = .ok
          { streamData := d
            currentQuality :=
              { quality := q, description := getQualityDescription q
                width := 0, height := 0, hasAudio := true, available := true }
            availableQualities := availOf api }) ∧
    ((tryQualities api (probeQualities pq)).2 = none →
      (∀ x ∈ probeQualities pq, mp4ProbeOk api x = false) ∧
      (tryQualities api (probeQualities pq)).1 = probeQualities pq) := by
  refine ⟨?_, ?_, ?_, ?_, tryQualities_none api _⟩
  · intro h
    unfold probeQualities
    rw [if_pos (by omega), if_pos (by omega)]
  · intro ⟨h1, h2⟩
    unfold probeQualities
    rw [if_pos h1, if_neg (by omega)]
  · intro h
    unfold probeQualities
    rw [if_neg (by omega)]
  · intro q d h
    rcases tryQualities_some api _ q d h with ⟨pre, post, hqs, hpre, hq, htr, hd⟩
    refine ⟨pre, post, hqs, hpre, hq, htr, hd, ?_⟩
    unfold getOptimalStream
    dsimp only
    rw [h]

/-- Claim C5 witness at an oracle with a muxed stream at quality 64 and no
requested quality. -/
theorem C5_combined_probe_witness :
    probeQualities 0 = [64, 32, 16] ∧
    (∃ pre post, probeQualities 0 = pre ++ 64 :: post ∧
      (∀ x ∈ pre, mp4ProbeOk api64 x = false) ∧ mp4ProbeOk api64 64 = true ∧
      (tryQualities api64 (probeQualities 0)).1 = pre ++ [64] ∧
      (api64 64 1).data = (api64 64 1).data ∧
      getOptimalStream api64 pu0 0 = .ok
        { streamData := (api64 64 1).data
          currentQuality :=
            { quality := 64, description := getQualityDescription 64
              width := 0, height := 0, hasAudio := true, available := true }
          availableQualities := availOf api64 }) :=
  ⟨(C5_combined_probe api64 pu0 0).2.2.1 (by decide),
   (C5_combined_probe api64 pu0 0).2.2.2.1 64 (api64 64 1).data rfl⟩

/-- The selection loop result is the initial candidate or a list element. -/
theorem selAux_eq_or_mem : ∀ (l : List DASHStream) (b : DASHStream),
    selAux b l = b ∨ selAux b l ∈ l := by
  intro l
  induction l with
  | nil => intro b; left; rfl
  | cons a rest ih =>
    intro b
    have hstep : selAux b (a :: rest) = selAux (bestStep b a) rest := rfl
    rcases ih (bestStep b a) with h | h
    · rw [hstep, h]
      unfold bestStep
      split_ifs
      · right; exact List.mem_cons_self a rest
      · left; rfl
    · right
      rw [hstep]
      exact List.mem_cons_of_mem a h

/-- The selection loop never drops below the initial candidate. -/
theorem selAux_init_le : ∀ (l : List DASHStream) (b : DASHStream),
    b.bandwidth ≤ (selAux b l).bandwidth := by
  intro l
  induction l with
  | nil => intro b; exact le_refl _
  | cons a rest ih =>
    intro b
    have hstep : selAux b (a :: rest) = selAux (bestStep b a) rest := rfl
    rw [hstep]
    refine le_trans ?_ (ih (bestStep b a))
    unfold bestStep
    split_ifs with hgt
    · omega
    · exact le_refl _

/-- The selection loop dominates every element it visits. -/
theorem selAux_ub : ∀ (l : List DASHStream) (b x : DASHStream),
    x ∈ l → x.bandwidth ≤ (selAux b l).bandwidth := by
  intro l
  induction l with
  | nil => intro b x hx; simp at hx
  | cons a rest ih =>
    intro b x hx
    have hstep : selAux b (a :: rest) = selAux (bestStep b a) rest := rfl
    rw [hstep]
    rcases List.mem_cons.mp hx with h1 | h1
    · rw [h1]
      refine le_trans ?_ (selAux_init_le rest (bestStep b a))
      unfold bestStep
      split_ifs with hgt <;> omega
    · exact ih (bestStep b a) x h1

/-- First-encounter property of the selection loop: the result is the
initial candidate, or it sits at an index before which every element has
strictly smaller bandwidth (and it strictly beats the initial candidate). -/
theorem selAux_first : ∀ (l : List DASHStream) (b : DASHStream),
    selAux b l = b ∨
    ∃ i, ∃ hi : i < l.length, l.get ⟨i, hi⟩ = selAux b l ∧
      b.bandwidth < (selAux b l).bandwidth ∧
      ∀ j, ∀ hj : j < l.length, j < i →
        (l.get ⟨j, hj⟩).bandwidth < (selAux b l).bandwidth := by
  intro l
  induction l with
  | nil => intro b; left; rfl
  | cons a rest ih =>
    intro b
    have hstep : selAux b (a :: rest) = selAux (bestStep b a) rest := rfl
    by_cases hgt : a.bandwidth > b.bandwidth
    · have hba : bestStep b a = a := if_pos hgt
      have hstep2 : selAux b (a :: rest) = selAux a rest := by rw [hstep, hba]
      rcases ih a with h | ⟨i, hi, hget, hlt, hprev⟩
      · right
        refine ⟨0, by simp, ?_, ?_, ?_⟩
        · rw [hstep2, h]; rfl
        · rw [hstep2, h]; exact hgt
        · intro j hj hj0; omega
      · right
        refine ⟨i + 1, by simpa using Nat.succ_lt_succ hi, ?_, ?_, ?_⟩
        · rw [hstep2]; exact hget
        · rw [hstep2]; omega
        · intro j hj hjlt
          cases j with
          | zero =>
            rw [hstep2]
            have h0 : (a :: rest).get ⟨0, hj⟩ = a := rfl
            rw [h0]
            exact hlt
          | succ k =>
            rw [hstep2]
            have hk : k < rest.length := by simpa using hj
            have hgetk : (a :: rest).get ⟨k + 1, hj⟩ = rest.get ⟨k, hk⟩ := rfl
            rw [hgetk]
            exact hprev k hk (by omega)
    · have hba : bestStep b a = b := if_neg hgt
      have hstep2 : selAux b (a :: rest) = selAux b rest := by rw [hstep, hba]
      rcases ih b with h | ⟨i, hi, hget, hlt, hprev⟩
      · left; rw [hstep2, h]
      · right
        refine ⟨i + 1, by simpa using Nat.succ_lt_succ hi, ?_, ?_, ?_⟩
        · rw [hstep2]; exact hget
        · rw [hstep2]; exact hlt
        · intro j hj hjlt
          cases j with
          | zero =>
            rw [hstep2]
            have h0 : (a :: rest).get ⟨0, hj⟩ = a := rfl
            rw [h0]
            omega
          | succ k =>
            rw [hstep2]
            have hk : k < rest.length := by simpa using hj
            have hgetk : (a :: rest).get ⟨k + 1, hj⟩ = rest.get ⟨k, hk⟩ := rfl
            rw [hgetk]
            exact hprev k hk (by omega)

/-- In a list with pairwise-distinct bandwidths, equal bandwidth forces
equality. -/
theorem bw_inj_of_pairwise :
    ∀ l : List DASHStream,
      l.Pairwise (fun a b => a.bandwidth ≠ b.bandwidth) →
      ∀ a, a ∈ l → ∀ b, b ∈ l → a.bandwidth = b.bandwidth → a = b := by
  intro l
  induction l with
  | nil => intro _ a ha; simp at ha
  | cons c rest ih =>
    intro hp a ha b hb heq
    rcases List.pairwise_cons.mp hp with ⟨hc, hrest⟩
    rcases List.mem_cons.mp ha with ha1 | ha2
    · rcases List.mem_cons.mp hb with hb1 | hb2
      · rw [ha1, hb1]
      · exact absurd (ha1 ▸ heq) (hc b hb2)
    · rcases List.mem_cons.mp hb with hb1 | hb2
      · exact absurd (hb1 ▸ heq.symm) (hc a ha2)
      · exact ih hrest a ha2 b hb2 heq

/-- Claim C6 (confirmed): the selected audio track is a maximum-bandwidth
element of the track list, ties break in favour of the first-encountered
track (every earlier element has strictly smaller bandwidth), and under
pairwise-distinct bandwidths the same track is selected for every
permutation of the input. -/
theorem C6_best_audio (l : List DASHStream) (sel : DASHStream)
    (h : selectBestAudio l = some sel) :
    sel ∈ l ∧ (∀ x ∈ l, x.bandwidth ≤ sel.bandwidth) ∧
    (∃ i, ∃ hi : i < l.length, l.get ⟨i, hi⟩ = sel ∧
      ∀ j, ∀ hj : j < l.length, j < i → (l.get ⟨j, hj⟩).bandwidth < sel.bandwidth) ∧
    (∀ l2, l.Perm l2 → l2.Pairwise (fun a b => a.bandwidth ≠ b.bandwidth) →
      selectBestAudio l2 = some sel) := by
  cases l with
  | nil => simp [selectBestAudio] at h
  | cons a rest =>
    have hsel : sel = selAux a (a :: rest) := by
      have hh : some (selAux a (a :: rest)) = some sel := h
      exact (Option.some.injEq .. ▸ hh).symm
    have hmem : sel ∈ a :: rest := by
      rcases selAux_eq_or_mem (a :: rest) a with h1 | h1
      · rw [hsel, h1]; exact List.mem_cons_self a rest
      · rw [hsel]; exact h1
    have hub : ∀ x ∈ a :: rest, x.bandwidth ≤ sel.bandwidth := by
      intro x hx
      rw [hsel]
      exact selAux_ub (a :: rest) a x hx
    refine ⟨hmem, hub, ?_, ?_⟩
    · rcases selAux_first (a :: rest) a with h1 | ⟨i, hi, hget, hlt, hprev⟩
      · refine ⟨0, by simp, ?_, ?_⟩
        · rw [hsel, h1]; rfl
        · intro j hj hj0; omega
      · refine ⟨i, hi, ?_, ?_⟩
        · rw [hsel]; exact hget
        · intro j hj hjlt
          rw [hsel]
          exact hprev j hj hjlt
    · intro l2 hperm hpw
      cases l2 with
      | nil => exact absurd hperm.eq_nil (by simp)
      | cons b rest2 =>
        have hsel2 : selectBestAudio (b :: rest2) = some (selAux b (b :: rest2)) := rfl
        have hmem2 : selAux b (b :: rest2) ∈ b :: rest2 := by
          rcases selAux_eq_or_mem (b :: rest2) b with h1 | h1
          · rw [h1]; exact List.mem_cons_self b rest2
          · exact h1
        have hub2 : ∀ x ∈ b :: rest2, x.bandwidth ≤ (selAux b (b :: rest2)).bandwidth :=
          fun x hx => selAux_ub (b :: rest2) b x hx
        have hsm2 : sel ∈ b :: rest2 := hperm.mem_iff.mp hmem
        have hs2m1 : selAux b (b :: rest2) ∈ a :: rest := hperm.mem_iff.mpr hmem2
        have heq : (selAux b (b :: rest2)).bandwidth = sel.bandwidth :=
          le_antisymm (hub _ hs2m1) (hub2 sel hsm2)
        rw [hsel2, bw_inj_of_pairwise (b :: rest2) hpw (selAux b (b :: rest2)) hmem2
          sel hsm2 heq]

/-- Claim C6 witness: a concrete two-track list selecting the 200-bandwidth
track. -/
theorem C6_best_audio_witness :
    let x1 : DASHStream := { id := 1, baseURL := "a1", bandwidth := 100, width := 0, height := 0 }
    let x2 : DASHStream := { id := 2, baseURL := "a2", bandwidth := 200, width := 0, height := 0 }
    x2 ∈ [x1, x2] ∧ (∀ x ∈ [x1, x2], x.bandwidth ≤ x2.bandwidth) ∧
    (∃ i, ∃ hi : i < ([x1, x2] : List DASHStream).length, [x1, x2].get ⟨i, hi⟩ = x2 ∧
      ∀ j, ∀ hj : j < ([x1, x2] : List DASHStream).length, j < i →
        ([x1, x2].get ⟨j, hj⟩).bandwidth < x2.bandwidth) ∧
    (∀ l2, ([x1, x2] : List DASHStream).Perm l2 →
      l2.Pairwise (fun a b => a.bandwidth ≠ b.bandwidth) →
      selectBestAudio l2 = some x2) :=
  C6_best_audio _ _ rfl

/-- Membership in the quality map built from the DASH video tracks,
generalized over the accumulator. -/
theorem videoMapAux_isSome :
    ∀ (videos : List DASHStream) (m0 : Int → Option QualityInfo) (q : Int),
      ((videos.foldl
        (fun m v => fun p => if p = v.id then some (mkVideoQualityInfo v) else m p) m0) q).isSome
        = ((m0 q).isSome || decide (q ∈ videos.map (·.id))) := by
  intro videos
  induction videos with
  | nil => intro m0 q; simp
  | cons v vs ih =>
    intro m0 q
    rw [List.foldl_cons, ih]
    by_cases hq : q = v.id
    · simp [hq]
    · simp [hq]

/-- The video-track quality map stores an entry exactly for observed ids. -/
theorem videoQualityMap_isSome (videos : List DASHStream) (q : Int) :
    ((videoQualityMap videos) q).isSome = decide (q ∈ videos.map (·.id)) := by
  unfold videoQualityMap
  rw [videoMapAux_isSome]
  simp

/-- Entries of the video-track quality map carry their key as quality,
generalized over the accumulator. -/
theorem videoMapAux_key :
    ∀ (videos : List DASHStream) (m0 : Int → Option QualityInfo),
      (∀ q e, m0 q = some e → e.quality = q) →
      ∀ q e, (videos.foldl
        (fun m v => fun p => if p = v.id then some (mkVideoQualityInfo v) else m p) m0) q
          = some e → e.quality = q := by
  intro videos
  induction videos with
  | nil => intro m0 h0 q e; exact h0 q e
  | cons v vs ih =>
    intro m0 h0 q e
    rw [List.foldl_cons]
    refine ih _ ?_ q e
    intro p e2 hp
    by_cases hpv : p = v.id
    · rw [if_pos hpv] at hp
      cases hp
      rw [hpv]
      rfl
    · rw [if_neg hpv] at hp
      exact h0 p e2 hp

/-- Entries of the video-track quality map carry their key as quality. -/
theorem videoQualityMap_key (videos : List DASHStream) :
    ∀ q e, (videoQualityMap videos) q = some e → e.quality = q :=
  videoMapAux_key videos (fun _ => none) (fun q e hqe => by simp at hqe)

/-- One MP4 probe pass adds an entry exactly at its own quality when the
probe succeeds. -/
theorem applyMP4Probe_isSome (api : ApiOracle) (m : Int → Option QualityInfo) (a q : Int) :
    ((applyMP4Probe api m a) q).isSome
      = ((m q).isSome || (decide (q = a) && mp4ProbeOk api a)) := by
  unfold applyMP4Probe
  by_cases hp : mp4ProbeOk api a
  · rw [if_pos hp]
    cases hma : m a with
    | some e => by_cases hq : q = a <;> simp [hq, hma, hp]
    | none => by_cases hq : q = a <;> simp [hq, hma, hp]
  · rw [if_neg hp]
    simp only [Bool.eq_false_iff, ne_eq] at hp
    simp [hp]

/-- The MP4 probe fold adds entries exactly at the probed qualities whose
probe succeeds. -/
theorem foldProbes_isSome (api : ApiOracle) :
    ∀ (qs : List Int) (m : Int → Option QualityInfo) (q : Int),
      ((qs.foldl (applyMP4Probe api) m) q).isSome
        = ((m q).isSome || (decide (q ∈ qs) && mp4ProbeOk api q)) := by
  intro qs
  induction qs with
  | nil => intro m q; simp
  | cons a t ih =>
    intro m q
    rw [List.foldl_cons, ih, applyMP4Probe_isSome]
    by_cases hq : q = a
    · subst hq
      by_cases hp : mp4ProbeOk api q <;> simp [hp]
    · simp [hq]

/-- One MP4 probe pass preserves the key-as-quality property. -/
theorem applyMP4Probe_key (api : ApiOracle) (m : Int → Option QualityInfo) (a : Int)
    (h0 : ∀ q e, m q = some e → e.quality = q) :
    ∀ q e, (applyMP4Probe api m a) q = some e → e.quality = q := by
  intro q e
  unfold applyMP4Probe
  by_cases hp : mp4ProbeOk api a
  · rw [if_pos hp]
    cases hma : m a with
    | some e0 =>
      dsimp only
      by_cases hq : q = a
      · rw [if_pos hq]
        intro he
        cases he
        rw [hq]
        exact h0 a e0 hma
      · rw [if_neg hq]
        exact h0 q e
    | none =>
      dsimp only
      by_cases hq : q = a
      · rw [if_pos hq]
        intro he
        cases he
        rw [hq]
      · rw [if_neg hq]
        exact h0 q e
  · rw [if_neg hp]
    exact h0 q e

/-- The MP4 probe fold preserves the key-as-quality property. -/
theorem foldProbes_key (api : ApiOracle) :
    ∀ (qs : List Int) (m : Int → Option QualityInfo),
      (∀ q e, m q = some e → e.quality = q) →
      ∀ q e, (qs.foldl (applyMP4Probe api) m) q = some e → e.quality = q := by
  intro qs
  induction qs with
  | nil => intro m h0; exact h0
  | cons a t ih =>
    intro m h0
    rw [List.foldl_cons]
    exact ih _ (applyMP4Probe_key api m a h0)

/-- Collecting a key-consistent map over an id order yields exactly the ids
with a stored entry, in order. -/
theorem filterMap_quality :
    ∀ (order : List Int) (m : Int → Option QualityInfo),
      (∀ q e, m q = some e → e.quality = q) →
      (order.filterMap m).map (·.quality) = order.filter (fun q => (m q).isSome) := by
  intro order
  induction order with
  | nil => intro m h; rfl
  | cons a t ih =>
    intro m h
    rw [List.filterMap_cons, List.filter_cons]
    cases hma : m a with
    | none => simp [hma, ih m h]
    | some e => simp [hma, ih m h, h a e hma]

/-- Claim C7, counterexample: a split manifest observing exactly quality id
126 (Dolby Vision) — an id on the claimed preference list — produces an
empty catalog: 126 is missing from the emission order, so the observed id is
dropped. -/
theorem C7_counterexample :
    (api126 80 16).ok = true ∧ (api126 80 16).code = 0 ∧
    (api126 80 16).data.dash = some dd126 ∧
    dd126.video.map (·.id) = [126] ∧
    (126 : Int) ∈ ([127, 125, 126, 120, 116, 112, 80, 74, 64, 32, 16] : List Int) ∧
    (126 : Int) ∉ qualitySortOrder ∧
    getAvailableQualities api126 = .ok [] :=
  ⟨rfl, rfl, rfl, rfl, by decide, by decide, rfl⟩

/-- Claim C7, amended: on a successful split probe the catalog lists exactly
the ids of the ten-entry emission order 127/125/120/116/112/80/74/64/32/16
(Dolby Vision 126 and any id outside the order are dropped) that were either
observed among the video tracks or added by a successful MP4 probe at
64/32/16, in that order. -/
theorem C7_catalog_contents (api : ApiOracle) (dd : DASHInfo)
    (hok : (api 80 16).ok = true) (hcode : (api 80 16).code = 0)
    (hdash : (api 80 16).data.dash = some dd) :
    ∃ L, getAvailableQualities api = .ok L ∧
      L.map (·.quality) = qualitySortOrder.filter
        (fun q => decide (q ∈ dd.video.map (·.id)) ||
                  (decide (q ∈ testMP4Qualities) && mp4ProbeOk api q)) := by
  refine ⟨qualitySortOrder.filterMap
    (testMP4Qualities.foldl (applyMP4Probe api) (videoQualityMap dd.video)), ?_, ?_⟩
  · unfold getAvailableQualities
    dsimp only
    simp only [hdash]
    rw [if_pos ⟨hok, hcode⟩]
  · rw [filterMap_quality qualitySortOrder _
      (foldProbes_key api testMP4Qualities _ (videoQualityMap_key dd.video))]
    refine List.filter_congr ?_
    intro q hq
    rw [foldProbes_isSome, videoQualityMap_isSome]

/-- Claim C7 witness: the amended catalog contents at the id-126 oracle. -/
theorem C7_catalog_contents_witness :
    ∃ L, getAvailableQualities api126 = .ok L ∧
      L.map (·.quality) = qualitySortOrder.filter
        (fun q => decide (q ∈ dd126.video.map (·.id)) ||
                  (decide (q ∈ testMP4Qualities) && mp4ProbeOk api126 q)) :=
  C7_catalog_contents api126 dd126 rfl rfl rfl

/-- Claim C10 (confirmed): on an open pool whose available count respects
capacity, every failing GetWithAuth path performs exactly one Put per
successful checkout (none when the checkout itself timed out) and leaves the
available count unchanged; the success path performs no Put before
returning, holds one instance, and its cleanup restores the original
available count. -/
theorem C10_pool_discipline (st : PoolState) (env : AuthEnv)
    (hcl : st.closed = false) (hcap : st.available ≤ st.capacity) :
    (∀ msg st1 puts, getWithAuth st env = (.failure msg, st1, puts) →
      st1.available = st.available ∧
      (0 < st.available → puts = 1) ∧ (st.available = 0 → puts = 0)) ∧
    (∀ st1 puts, getWithAuth st env = (.success, st1, puts) →
      puts = 0 ∧ st1.available + 1 = st.available ∧
      (poolPut st1).available = st.available) := by
  rcases env with ⟨nc, ae, da, lc, ac, np⟩
  by_cases hav : st.available = 0
  · have hpg : poolGet st = (none, st) := by
      unfold poolGet
      rw [hcl]
      simp [hav]
    constructor
    · intro msg st1 puts h
      unfold getWithAuth at h
      rw [hpg] at h
      dsimp only at h
      simp only [Prod.mk.injEq, AuthOutcome.failure.injEq] at h
      obtain ⟨-, rfl, rfl⟩ := h
      exact ⟨rfl, fun hlt => absurd hav (by omega), fun _ => rfl⟩
    · intro st1 puts h
      unfold getWithAuth at h
      rw [hpg] at h
      dsimp only at h
      simp at h
  · have hpos : 0 < st.available := Nat.pos_of_ne_zero hav
    have hpg : poolGet st = (some (), { st with available := st.available - 1 }) := by
      unfold poolGet
      rw [hcl]
      simp [hpos]
    have hput : poolPut { st with available := st.available - 1 } = st := by
      unfold poolPut
      rw [if_neg (by simp [hcl]), if_pos (show st.available - 1 < st.capacity by omega)]
      show { st with available := st.available - 1 + 1 } = st
      rw [Nat.sub_add_cancel hpos]
    constructor
    · intro msg st1 puts h
      unfold getWithAuth at h
      rw [hpg] at h
      dsimp only at h
      cases nc <;> cases ae <;> cases da <;> cases lc <;> cases ac <;> cases np <;>
        simp only [Bool.not_true, Bool.not_false, Bool.true_and, Bool.false_and,
          Bool.and_true, Bool.and_false, if_true, if_false, ite_true, ite_false,
          Bool.false_eq_true, Bool.true_eq_false] at h <;>
        simp only [Prod.mk.injEq, AuthOutcome.failure.injEq, reduceCtorEq,
          false_and, and_false] at h <;>
        (obtain ⟨-, rfl, rfl⟩ := h;
         exact ⟨by rw [hput], fun _ => rfl, fun h0 => absurd h0 (by omega)⟩)
    · intro st1 puts h
      unfold getWithAuth at h
      rw [hpg] at h
      dsimp only at h
      cases nc <;> cases ae <;> cases da <;> cases lc <;> cases ac <;> cases np <;>
        simp only [Bool.not_true, Bool.not_false, Bool.true_and, Bool.false_and,
          Bool.and_true, Bool.and_false, if_true, if_false, ite_true, ite_false,
          Bool.false_eq_true, Bool.true_eq_false] at h <;>
        simp only [Prod.mk.injEq, reduceCtorEq, false_and, and_false] at h <;>
        (obtain ⟨-, rfl, rfl⟩ := h;
         exact ⟨rfl, by simp; omega, by rw [hput]⟩)

/-- A pool of two browsers, both available. -/
def st22 : PoolState := { available := 2, capacity := 2, closed := false }

/-- A GetWithAuth environment in which every step succeeds. -/
def envAuthOk : AuthEnv :=
  { newContextOk := true, accountNameEmpty := false, defaultAccountOk := false
    loadCookiesOk := true, addCookiesOk := true, newPageOk := true }

/-- Claim C10 witness: the success path on a two-browser pool. -/
theorem C10_pool_discipline_witness :
    (0 : Nat) = 0 ∧
    ({ available := 1, capacity := 2, closed := false } : PoolState).available + 1
      = st22.available ∧
    (poolPut { available := 1, capacity := 2, closed := false }).available = st22.available :=
  (C10_pool_discipline st22 envAuthOk rfl (by decide)).2
    { available := 1, capacity := 2, closed := false } 0 rfl

end BilibiliMCP
